import Mathlib

/-!
# Verification of the OmniEvent format-conversion and evaluation core

Shallow embedding of `OpenEE/evaluation/convert_format.py` and
`OpenEE/input_engineering/seq2seq_processor.py`, together with proofs of the
specified properties.  Strings are modelled as lists of characters so that the
Python string operations (`split`, `strip`, `replace`, slicing) can be embedded
faithfully and reasoned about by induction.
-/

set_option autoImplicit false

namespace OmniEvent

/-- Strings are modelled as lists of characters. -/
abbrev Str := List Char

/-- Characters treated as whitespace by the Python string routines
(`str.split()`, `str.strip()`). -/
def isWs (c : Char) : Bool :=
  c = ' ' ∨ c = '\t' ∨ c = '\n' ∨ c = '\r'

/-- Worker for `pySplit`: `cur` holds the (reversed) word currently being
accumulated. -/
def pySplitAux : List Char → List Char → List (List Char)
  | [], [] => []
  | [], cur => [cur.reverse]
  | c :: cs, cur =>
    if isWs c then
      match cur with
      | [] => pySplitAux cs []
      | _ => cur.reverse :: pySplitAux cs []
    else pySplitAux cs (c :: cur)

/-- Python `s.split()` (no separator argument): splits on runs of whitespace,
discarding empty fields. -/
def pySplit (s : Str) : List Str := pySplitAux s []

/-- Worker for `countWords`: the boolean records whether the previous character
belonged to a word. -/
def countWordsAux : Bool → List Char → Nat
  | _, [] => 0
  | inWord, c :: cs =>
    if isWs c then countWordsAux false cs
    else (if inWord then 0 else 1) + countWordsAux true cs

/-- Number of whitespace-delimited words of a string: the number of maximal
non-whitespace runs.  This is the specification-side counterpart of
`(pySplit s).length`. -/
def countWords (s : Str) : Nat := countWordsAux false s

/-- `(pySplitAux s cur).length` counted via `countWordsAux`; the pending
partial word `cur` contributes one extra word when non-empty. -/
theorem pySplitAux_length (s : List Char) :
    ∀ cur : List Char,
      (pySplitAux s cur).length =
        (if cur.isEmpty then 0 else 1) + countWordsAux (!cur.isEmpty) s := by
  induction s with
  | nil =>
    intro cur
    cases cur <;> simp [pySplitAux, countWordsAux]
  | cons c cs ih =>
    intro cur
    by_cases hws : isWs c
    · cases cur with
      | nil => simp [pySplitAux, countWordsAux, hws, ih []]
      | cons x xs =>
        simp [pySplitAux, countWordsAux, hws, ih []]
        omega
    · cases cur with
      | nil =>
        have := ih [c]
        simp [pySplitAux, countWordsAux, hws] at this ⊢
        omega
      | cons x xs =>
        have := ih (c :: x :: xs)
        simp [pySplitAux, countWordsAux, hws] at this ⊢
        omega

/-- The number of fields of Python `split()` equals the word count. -/
theorem pySplit_length (s : Str) : (pySplit s).length = countWords s := by
  simpa [pySplit, countWords] using pySplitAux_length s []

/-- Flattening `pySplitAux` recovers the pending word plus all non-whitespace
characters of the remainder. -/
theorem pySplitAux_flatten (s : List Char) :
    ∀ cur : List Char,
      (pySplitAux s cur).flatten = cur.reverse ++ s.filter (fun c => !isWs c) := by
  induction s with
  | nil =>
    intro cur
    cases cur <;> simp [pySplitAux]
  | cons c cs ih =>
    intro cur
    by_cases hws : isWs c
    · cases cur with
      | nil => simp [pySplitAux, hws, ih []]
      | cons x xs => simp [pySplitAux, hws, ih []]
    · simp [pySplitAux, hws, ih (c :: cur)]

/-- The concatenation of Python `split()`'s fields is the string with all
whitespace removed. -/
theorem pySplit_flatten (s : Str) :
    (pySplit s).flatten = s.filter (fun c => !isWs c) := by
  simpa [pySplit] using pySplitAux_flatten s []

/-! ## Data model (§3 of the spec, mirroring the JSON document format) -/

/-- Language tag carried by `data_args.language` / `config.language`. -/
inductive Language where
  | English
  | Chinese
  | Other (tag : Str)
deriving DecidableEq

/-- The three argument-extraction evaluation modes (`data_args.eae_eval_mode`). -/
inductive EvalMode where
  | defaultMode
  | loose
  | strict
deriving DecidableEq

/-- Errors raised by the embedded code.  Python exceptions are mapped to the
spec's error taxonomy (§7): `NotImplementedError` on an unknown language tag is
`UnsupportedLanguageError`; the `assert len(preds) == eae_instance_idx` check
and any out-of-bounds positional access into a prediction array are
`PredictionAlignmentError`; a failed per-word length assertion is
`LengthAssertError`; `list.remove` on an absent element is `ValueError`;
an unbound loop variable is `NameError`; indexing into `None` is `TypeError`. -/
inductive ConvErr where
  | UnsupportedLanguageError
  | PredictionAlignmentError
  | LengthAssertError
  | ValueError
  | NameError
  | TypeError
  | KeyError
deriving DecidableEq

/-- A mention: `mention_id`, surface string `mention`, character span
`position` (start, end). -/
structure Mention where
  mention_id : Nat
  mention : Str
  position : Nat × Nat
deriving DecidableEq

/-- An argument of a trigger: a role label and its mentions. -/
structure Argument where
  role : Str
  mentions : List Mention
deriving DecidableEq

/-- An event trigger: surface word, character span, and role-labelled
arguments. -/
structure Trigger where
  trigger_word : Str
  position : Nat × Nat
  arguments : List Argument
deriving DecidableEq

/-- An event: type label and its triggers. -/
structure Event where
  type : Str
  triggers : List Trigger
deriving DecidableEq

/-- An entity: a group of mentions (used as the negative-candidate source for
argument extraction when present). -/
structure Entity where
  mentions : List Mention
deriving DecidableEq

/-- One document (one JSON line of a data file).  `events = none` models a
document without an `"events"` key (blind-inference mode, `candidates` used
instead); `entities = none` models a document without an `"entities"` key. -/
structure Item where
  text : Str
  events : Option (List Event)
  negative_triggers : List Mention
  entities : Option (List Entity)
  candidates : List Mention
deriving DecidableEq

/-- The `"NA"` sentinel label. -/
def NAs : Str := "NA".toList

/-! ## Offset Mapper and shared helpers -/

/-- The character-offset-to-word-index conversion, as written inline in
`convert_format.py` (lines 74-82, 208-216, 250-259): English uses
`len(text[:start].split())` and adds `len(text[start:end].split())`; Chinese
uses the whitespace-stripped character count of the two prefixes; any other
language raises `NotImplementedError`.  Python's slice `text[a:b]` is
`(text.take b).drop a`. -/
def to_word_span (lang : Language) (text : Str) (char_pos : Nat × Nat) :
    Except ConvErr (Nat × Nat) :=
  match lang with
  | .English =>
    let word_pos_start := (pySplit (text.take char_pos.1)).length
    .ok (word_pos_start,
         word_pos_start + (pySplit ((text.take char_pos.2).drop char_pos.1)).length)
  | .Chinese =>
    .ok ((pySplit (text.take char_pos.1)).flatten.length,
         (pySplit (text.take char_pos.2)).flatten.length)
  | .Other _ => .error .UnsupportedLanguageError

/-- Modelled from the spec: `get_words` (Tokenization Adapter, §4.1 — the
function lives in `input_engineering/input_utils.py`, which is not part of
this excerpt).  English: split on whitespace; Chinese: remove whitespace and
split into individual characters; other tags fail with
`UnsupportedLanguageError`. -/
def get_words (lang : Language) (text : Str) : Except ConvErr (List Str) :=
  match lang with
  | .English => .ok (pySplit text)
  | .Chinese => .ok ((pySplit text).flatten.map (fun c => [c]))
  | .Other _ => .error .UnsupportedLanguageError

/-- Modelled from the spec: `get_pred_per_mention` (Sequence Feature Builder,
§4.6 — the function lives in `evaluation/dump_result.py`, which is not part of
this excerpt).  The first word's predicted label governs the span; `per_word`
entries are already label strings. -/
def get_pred_per_mention (word_pos_start _word_pos_end : Nat)
    (per_word : List Str) : Str :=
  per_word.getD word_pos_start NAs

/-- Python `set(range(a, b))`, as a list of the contained naturals. -/
def pyRangeSet (a b : Nat) : List Nat :=
  (List.range (b - a)).map (fun j => a + j)

/-- The per-instance length assertion (`assert len(preds[i]) == ...`), with
the language dispatch of the source: English compares against the word count,
Chinese against the whitespace-free character count, any other language raises
`NotImplementedError`.  Indexing `preds` out of bounds is a prediction
misalignment. -/
def lengthCheck (lang : Language) (preds : List (List Str)) (idx : Nat)
    (text : Str) : Except ConvErr Unit :=
  match lang with
  | .English =>
    match preds.get? idx with
    | none => .error .PredictionAlignmentError
    | some row =>
      if row.length = (pySplit text).length then .ok ()
      else .error .LengthAssertError
  | .Chinese =>
    match preds.get? idx with
    | none => .error .PredictionAlignmentError
    | some row =>
      if row.length = (pySplit text).flatten.length then .ok ()
      else .error .LengthAssertError
  | .Other _ => .error .UnsupportedLanguageError

/-- The `# loop for converting` block shared by both converters: for each
candidate position, map its character span to a word span and read off the
span's prediction from row `idx` of the per-word prediction array. -/
def convertCandidates (lang : Language) (preds : List (List Str)) (idx : Nat)
    (text : Str) (cands : List (Nat × Nat)) : Except ConvErr (List Str) :=
  cands.mapM (fun char_pos => do
    let ws ← to_word_span lang text char_pos
    match preds.get? idx with
    | none => .error .PredictionAlignmentError
    | some row => .ok (get_pred_per_mention ws.1 ws.2 row))

/-- Python `list.remove`: removes the first occurrence, raising `ValueError`
when the element is absent.  Used for `pos_labels.remove("NA")`. -/
def listRemove (x : Str) (l : List Str) : Except ConvErr (List Str) :=
  if x ∈ l then .ok (l.erase x) else .error .ValueError

/-! ## Event-detection converter (`get_ace2005_trigger_detection_sl`) -/

/-- Accumulated output streams of the converters. -/
structure EDState where
  results : List Str
  label_names : List Str
deriving DecidableEq

/-- Candidate enumeration for event detection (lines 59-69): with gold
`events`, every trigger is a candidate labelled with its event's type and
every negative trigger a candidate labelled `NA`; otherwise the document's
`candidates` list is used verbatim, contributing no labels. -/
def edCandidates (item : Item) : List (Nat × Nat) × List Str :=
  match item.events with
  | some evs =>
    ((evs.map (fun ev => ev.triggers.map (fun tr => tr.position))).flatten
       ++ item.negative_triggers.map (fun n => n.position),
     (evs.map (fun ev => ev.triggers.map (fun _ => ev.type))).flatten
       ++ item.negative_triggers.map (fun _ => NAs))
  | none => (item.candidates.map (fun n => n.position), [])

/-- Body of the per-document loop of `get_ace2005_trigger_detection_sl`
(lines 49-86): length assertion unless the document overflowed, candidate
enumeration, then span-prediction extraction from row `i` of `preds`. -/
def processItemED (lang : Language) (preds : List (List Str))
    (is_overflow : Nat → Bool) (i : Nat) (item : Item) (st : EDState) :
    Except ConvErr EDState :=
  match (if is_overflow i then Except.ok () else lengthCheck lang preds i item.text) with
  | .error e => .error e
  | .ok _ =>
    match convertCandidates lang preds i item.text (edCandidates item).1 with
    | .error e => .error e
    | .ok prs => .ok ⟨st.results ++ prs, st.label_names ++ (edCandidates item).2⟩

/-- The document loop of `get_ace2005_trigger_detection_sl`. -/
def processDocsED (lang : Language) (preds : List (List Str))
    (is_overflow : Nat → Bool) (docs : List Item) : Except ConvErr EDState :=
  docs.enum.foldlM
    (fun st ip => processItemED lang preds is_overflow ip.1 ip.2 st)
    ⟨[], []⟩

/-- `get_ace2005_trigger_detection_sl` (lines 17-94).  After the loop, the
micro-F1 post-scoring step runs only when the *last* parsed document has an
`"events"` key (line 88 reads the loop variable `item`); an empty file leaves
`item` unbound (`NameError`).  The F1 value itself is computed by the external
`sklearn` scorer; the embedded scoring step performs its fallible part,
`pos_labels = list(set(label_names)); pos_labels.remove("NA")`. -/
def get_ace2005_trigger_detection_sl (lang : Language)
    (preds : List (List Str)) (is_overflow : Nat → Bool) (docs : List Item) :
    Except ConvErr (List Str) :=
  match processDocsED lang preds is_overflow docs with
  | .error e => .error e
  | .ok st =>
    match docs.getLast? with
    | none => .error .NameError
    | some lastItem =>
      if lastItem.events.isSome then
        match listRemove NAs st.label_names.dedup with
        | .error e => .error e
        | .ok _pos_labels => .ok st.results
      else
        .ok st.results

/-! ## Argument-extraction converter (`get_ace2005_argument_extraction_sl`) -/

/-- Configuration consumed by the argument-extraction converter:
`data_args.language`, `data_args.eae_eval_mode`, `data_args.golden_trigger`,
and the decoded `test_pred_file` contents (`none` when the file is missing,
in which case the resolver falls back to gold labels). -/
structure EAEConfig where
  language : Language
  eae_eval_mode : EvalMode
  golden_trigger : Bool
  event_preds : Option (List Str)

/-- Mutable state threaded through the converter's loops: the positional
prediction-file index `trigger_idx`, the instance counter `eae_instance_idx`,
and the two output streams. -/
structure EAEState where
  trigger_idx : Nat
  eae_idx : Nat
  results : List Str
  label_names : List Str
deriving DecidableEq

/-- Initial state of the argument-extraction pass. -/
def initEAE : EAEState := ⟨0, 0, [], []⟩

/-- The Label Backfill Resolver as written in `convert_format.py`
(lines 148-151, 226-229): gold type when `golden_trigger` is set or no
prediction file was supplied, otherwise `event_preds[trigger_idx]`; running
past the array bound is a fatal misalignment. -/
def resolvePredType (cfg : EAEConfig) (trigger_idx : Nat) (true_type : Str) :
    Except ConvErr Str :=
  if cfg.golden_trigger then .ok true_type
  else
    match cfg.event_preds with
    | none => .ok true_type
    | some eps =>
      match eps.get? trigger_idx with
      | some p => .ok p
      | none => .error .PredictionAlignmentError

/-- Positive candidates of a trigger (lines 170-175): every mention of every
argument, labelled with the argument's role. -/
def posCandidates (tr : Trigger) : List (Str × Mention) :=
  (tr.arguments.map (fun a => a.mentions.map (fun m => (a.role, m)))).flatten

/-- The `mention_id`s of the positive mentions (line 174). -/
def posMentionIds (tr : Trigger) : List Nat :=
  (posCandidates tr).map (fun p => p.2.mention_id)

/-- The character spans of the positive mentions (line 175). -/
def posOffsetsOf (tr : Trigger) : List (Nat × Nat) :=
  (posCandidates tr).map (fun p => p.2.position)

/-- Negative candidates when the document has `entities` (lines 177-190):
skip every entity one of whose mentions is a positive mention; all mentions of
the remaining entities are negatives labelled `NA`. -/
def negCandidatesEntities (entities : List Entity) (posIds : List Nat) :
    List (Str × Mention) :=
  (entities.map (fun ent =>
    if ent.mentions.any (fun m => m.mention_id ∈ posIds) then []
    else ent.mentions.map (fun m => (NAs, m)))).flatten

/-- Negative candidates when the document has no `entities` (lines 191-203):
a negative trigger whose `set(range(...))` of character offsets meets some
positive mention's offset set is skipped; the rest are negatives labelled
`NA`. -/
def negCandidatesNoEnt (negs : List Mention) (posOffsets : List (Nat × Nat)) :
    List (Str × Mention) :=
  negs.filterMap (fun neg =>
    if posOffsets.any (fun p =>
        (pyRangeSet p.1 p.2).any (fun k => k ∈ pyRangeSet neg.position.1 neg.position.2)) then
      none
    else some (NAs, neg))

/-- The candidate list of a positive-trigger instance (lines 167-203). -/
def posTriggerCandidates (item : Item) (tr : Trigger) : List (Str × Mention) :=
  posCandidates tr ++
    (match item.entities with
     | some ents => negCandidatesEntities ents (posMentionIds tr)
     | none => negCandidatesNoEnt item.negative_triggers (posOffsetsOf tr))

/-- The candidate list of a scored negative-trigger instance (lines 243-246):
every negative trigger of the document, labelled `NA` — the document's
`entities` are not consulted here. -/
def negTriggerCandidates (item : Item) : List (Str × Mention) :=
  item.negative_triggers.map (fun neg => (NAs, neg))

/-- Score one instance (the block shared by lines 159-221 and 234-265):
length assertion unless the instance overflowed, append the candidates'
labels to `label_names` and their extracted span predictions to `results`,
and advance `eae_instance_idx`. -/
def scoreInstance (cfg : EAEConfig) (preds : List (List Str))
    (is_overflow : Nat → Bool) (item : Item) (cands : List (Str × Mention))
    (st : EAEState) : Except ConvErr EAEState :=
  match (if is_overflow st.eae_idx then Except.ok ()
         else lengthCheck cfg.language preds st.eae_idx item.text) with
  | .error e => .error e
  | .ok _ =>
    match convertCandidates cfg.language preds st.eae_idx item.text
        (cands.map (fun c => c.2.position)) with
    | .error e => .error e
    | .ok prs =>
      .ok { st with
        eae_idx := st.eae_idx + 1,
        results := st.results ++ prs,
        label_names := st.label_names ++ cands.map (fun c => c.1) }

/-- Processing of one positive trigger (lines 146-221): resolve the predicted
type, advance `trigger_idx`, apply the evaluation-mode gate (`default` and
`loose` skip a trigger whose predicted type is `NA`), then score the
instance. -/
def processPosTrigger (cfg : EAEConfig) (preds : List (List Str))
    (is_overflow : Nat → Bool) (item : Item) (evType : Str) (tr : Trigger)
    (st : EAEState) : Except ConvErr EAEState :=
  match resolvePredType cfg st.trigger_idx evType with
  | .error e => .error e
  | .ok pred_type =>
    let st1 := { st with trigger_idx := st.trigger_idx + 1 }
    if (cfg.eae_eval_mode = EvalMode.defaultMode ∨ cfg.eae_eval_mode = EvalMode.loose)
        ∧ pred_type = NAs then
      .ok st1
    else
      scoreInstance cfg preds is_overflow item (posTriggerCandidates item tr) st1

/-- Processing of one negative trigger (lines 224-265): its gold type is
`"NA"`; after resolving the predicted type and advancing `trigger_idx`, the
instance is scored only in `default` and `strict` mode and only when the
predicted type is not `NA`. -/
def processNegTrigger (cfg : EAEConfig) (preds : List (List Str))
    (is_overflow : Nat → Bool) (item : Item) (_neg : Mention)
    (st : EAEState) : Except ConvErr EAEState :=
  match resolvePredType cfg st.trigger_idx NAs with
  | .error e => .error e
  | .ok pred_type =>
    let st1 := { st with trigger_idx := st.trigger_idx + 1 }
    if cfg.eae_eval_mode = EvalMode.defaultMode ∨ cfg.eae_eval_mode = EvalMode.strict then
      if pred_type ≠ NAs then
        scoreInstance cfg preds is_overflow item (negTriggerCandidates item) st1
      else .ok st1
    else .ok st1

/-- The positive phase of a document: all triggers of all events in order
(lines 145-221). -/
def eaePosPhase (cfg : EAEConfig) (preds : List (List Str))
    (is_overflow : Nat → Bool) (item : Item) (evs : List Event)
    (st : EAEState) : Except ConvErr EAEState :=
  evs.foldlM (fun st ev =>
    ev.triggers.foldlM (fun st tr =>
      processPosTrigger cfg preds is_overflow item ev.type tr st) st) st

/-- The negative phase of a document: all negative triggers in order
(lines 224-265). -/
def eaeNegPhase (cfg : EAEConfig) (preds : List (List Str))
    (is_overflow : Nat → Bool) (item : Item) (st : EAEState) :
    Except ConvErr EAEState :=
  item.negative_triggers.foldlM (fun st neg =>
    processNegTrigger cfg preds is_overflow item neg st) st

/-- Per-document processing (lines 144-265): positive triggers of every event
in order, then the document's negative triggers.  A document without an
`"events"` key raises `KeyError` (`item["events"]`). -/
def processItemEAE (cfg : EAEConfig) (preds : List (List Str))
    (is_overflow : Nat → Bool) (item : Item) (st : EAEState) :
    Except ConvErr EAEState :=
  match item.events with
  | none => .error .KeyError
  | some evs =>
    match eaePosPhase cfg preds is_overflow item evs st with
    | .error e => .error e
    | .ok st => eaeNegPhase cfg preds is_overflow item st

/-- The full document pass of `get_ace2005_argument_extraction_sl`. -/
def processDocsEAE (cfg : EAEConfig) (preds : List (List Str))
    (is_overflow : Nat → Bool) (docs : List Item) : Except ConvErr EAEState :=
  docs.foldlM (fun st item => processItemEAE cfg preds is_overflow item st) initEAE

/-- `get_ace2005_argument_extraction_sl` (lines 97-275): after the pass, the
`assert len(preds) == eae_instance_idx` alignment check (line 267), then the
fallible part of the scoring step
(`pos_labels = list(set(label_names)); pos_labels.remove("NA")`,
lines 269-270); the converter returns the prediction stream. -/
def get_ace2005_argument_extraction_sl (cfg : EAEConfig)
    (preds : List (List Str)) (is_overflow : Nat → Bool) (docs : List Item) :
    Except ConvErr (List Str) :=
  match processDocsEAE cfg preds is_overflow docs with
  | .error e => .error e
  | .ok st =>
    if preds.length = st.eae_idx then
      match listRemove NAs st.label_names.dedup with
      | .error e => .error e
      | .ok _pos_labels => .ok st.results
    else .error .PredictionAlignmentError

/-! ## Sequence-to-sequence label template (`seq2seq_processor.py`) -/

/-- `type_start` (line 17). -/
def type_start : Char := '<'

/-- `type_end` (line 18). -/
def type_end : Char := '>'

/-- `split_word` (line 19). -/
def split_word : Char := ':'

/-- Generic single-character splitter keeping empty fields: the common core of
`re.split("<|>", ...)` and Python `str.split(":")`.  `cur` holds the
(reversed) current field. -/
def splitOnPred (p : Char → Bool) : List Char → List Char → List Str
  | [], cur => [cur.reverse]
  | c :: cs, cur =>
    if p c then cur.reverse :: splitOnPred p cs []
    else splitOnPred p cs (c :: cur)

/-- Whether a character is one of the template brackets. -/
def isBracket (c : Char) : Bool := c = type_start ∨ c = type_end

/-- `re.split("<|>", raw_text)` (lines 24/26): split at every `<` or `>`,
keeping empty fields. -/
def splitBrackets (s : Str) : List Str := splitOnPred isBracket s []

/-- Python `s.strip()`: remove leading and trailing whitespace. -/
def pyStrip (s : Str) : Str :=
  ((s.dropWhile (fun c => isWs c)).reverse.dropWhile (fun c => isWs c)).reverse

/-- Python `span.split(":")` (line 29): split at every colon, keeping empty
fields. -/
def splitColon (s : Str) : List Str := splitOnPred (fun c => c = split_word) s []

/-- Python `s.replace(" ", "")`: remove every space character. -/
def pyReplaceSpace (s : Str) : Str := s.filter (fun c => c ≠ ' ')

/-- The per-span body of `extract_argument`'s loop (lines 27-35): skip blank
spans, split the stripped span at colons (`span.strip().split(split_word)`),
require exactly two fields, strip and de-space the role and the value, and
drop pairs with an empty side. -/
def parseSpan (instance_id : Nat) (event_type : Str) (span : Str) :
    Option (Nat × Str × Str × Str) :=
  if pyStrip span = [] then none
  else
    match splitColon (pyStrip span) with
    | [w0, w1] =>
      let role := pyReplaceSpace (pyStrip w0)
      let value := pyReplaceSpace (pyStrip w1)
      if role ≠ [] ∧ value ≠ [] then some (instance_id, event_type, role, value)
      else none
    | _ => none

/-- `extract_argument` (lines 24-37): split the raw text at template
brackets, parse each span, and deduplicate (`list(set(...))`, modelled by
`List.dedup`: same members, duplicates collapsed). -/
def extract_argument (raw_text : Str) (instance_id : Nat) (event_type : Str) :
    List (Nat × Str × Str × Str) :=
  ((splitBrackets raw_text).filterMap (parseSpan instance_id event_type)).dedup

/-- The `whitespace` filler of `read_examples` (line 142): a space for
English, nothing for Chinese. -/
def s2sWhitespace (lang : Language) : Str :=
  if lang = Language.English then [' '] else []

/-- One bracketed template block
(`f"{type_start}{whitespace}{role}{split_word}{whitespace}{mention}{whitespace}{type_end}"`,
line 165). -/
def encodeBlock (ws : Str) (role value : Str) : Str :=
  type_start :: ws ++ role ++ split_word :: ws ++ value ++ ws ++ [type_end]

/-- The flattened (role, mention-surface) pairs of a trigger's arguments, in
the order of the nested loops of lines 160-165. -/
def argPairs (args : List Argument) : List (Str × Str) :=
  (args.map (fun a => a.mentions.map (fun m => (a.role, m.mention)))).flatten

/-- Encoding of a list of (role, value) pairs into the label template:
concatenation of the bracketed blocks; the empty list encodes to the empty
string (lines 166-169). -/
def encodePairs (ws : Str) (ps : List (Str × Str)) : Str :=
  (ps.map (fun p => encodeBlock ws p.1 p.2)).flatten

/-- The `labels` string built for a trigger (lines 158-169): one block per
argument mention, concatenated; empty when there are no arguments. -/
def encodeLabels (ws : Str) (args : List Argument) : Str :=
  encodePairs ws (argPairs args)

/-! ## `EAESeq2SeqProcessor.read_examples` -/

/-- Configuration of the seq2seq argument-extraction processor. -/
structure S2SConfig where
  language : Language
  eae_eval_mode : EvalMode
  golden_trigger : Bool
  is_training : Bool
  event_preds : Option (List Str)

/-- One produced `EAEInputExample` (the fields the claims depend on; the
tokenized `text` and `kwargs` bookkeeping are not modelled). -/
structure EAEInputExample where
  example_id : Nat
  pred_type : Str
  true_type : Str
  trigger_left : Nat
  trigger_right : Nat
  labels : Str
deriving DecidableEq

/-- State of `read_examples`: the positional index `trigger_idx`, the Python
loop variable `event` (which, once bound, persists across loop iterations and
across documents — the negative-trigger branch reads it), and the produced
examples. -/
structure S2SState where
  trigger_idx : Nat
  lastEvent : Option Event
  examples : List EAEInputExample
deriving DecidableEq

/-- `self.event_preds[trigger_idx]` with bound checking: running past the end
of the prediction array is a fatal misalignment. -/
def s2sIndex (eps : List Str) (idx : Nat) : Except ConvErr Str :=
  match eps.get? idx with
  | some p => .ok p
  | none => .error .PredictionAlignmentError

/-- One positive trigger of `read_examples` (lines 146-181): resolve the
predicted type (gold when training, golden-trigger, or no prediction file),
advance `trigger_idx`, apply the `default`/`loose` gate, then append an
example whose `labels` is the encoded argument template. -/
def s2sPosTrigger (cfg : S2SConfig) (ev : Event) (tr : Trigger)
    (st : S2SState) : Except ConvErr S2SState := do
  let pred_event_type ←
    if cfg.is_training ∨ cfg.golden_trigger ∨ cfg.event_preds = none then
      pure ev.type
    else
      match cfg.event_preds with
      | some eps => s2sIndex eps st.trigger_idx
      | none => pure ev.type
  let st := { st with trigger_idx := st.trigger_idx + 1 }
  if (cfg.eae_eval_mode = EvalMode.defaultMode ∨ cfg.eae_eval_mode = EvalMode.loose)
      ∧ pred_event_type = NAs then
    pure st
  else
    pure { st with examples := st.examples ++
      [⟨st.trigger_idx - 1, pred_event_type, ev.type,
        tr.position.1, tr.position.2,
        encodeLabels (s2sWhitespace cfg.language) tr.arguments⟩] }

/-- One negative trigger of `read_examples` (lines 183-207).  The gold-type
branch reads the stale loop variable `event["type"]` (line 185) — the last
positive event iterated, not `"NA"`; when no event was ever iterated the name
is unbound (`NameError`).  In `loose` mode the trigger is skipped; in
`default`/`strict` mode an example (true type `"NA"`, empty labels) is
produced only when the predicted type is not `"NA"`. -/
def s2sNegTrigger (cfg : S2SConfig) (neg : Mention) (st : S2SState) :
    Except ConvErr S2SState := do
  let pred_event_type ←
    if cfg.is_training ∨ cfg.golden_trigger ∨ cfg.event_preds = none then
      match st.lastEvent with
      | some ev => pure ev.type
      | none => Except.error ConvErr.NameError
    else
      match cfg.event_preds with
      | some eps => s2sIndex eps st.trigger_idx
      | none => Except.error ConvErr.NameError
  let st := { st with trigger_idx := st.trigger_idx + 1 }
  match cfg.eae_eval_mode with
  | .loose => pure st
  | _ =>
    if pred_event_type ≠ NAs then
      pure { st with examples := st.examples ++
        [⟨st.trigger_idx - 1, pred_event_type, NAs,
          neg.position.1, neg.position.2, []⟩] }
    else pure st

/-- One blind-inference candidate of `read_examples` (lines 211-229): the
prediction array is indexed unconditionally (`self.event_preds[trigger_idx]`
— `None` there is a `TypeError`), and an example with true type `"NA"` is
produced when the predicted type is not `"NA"`. -/
def s2sCandidate (cfg : S2SConfig) (candi : Mention) (st : S2SState) :
    Except ConvErr S2SState := do
  let pred_event_type ←
    match cfg.event_preds with
    | some eps => s2sIndex eps st.trigger_idx
    | none => Except.error ConvErr.TypeError
  let st := { st with trigger_idx := st.trigger_idx + 1 }
  if pred_event_type ≠ NAs then
    pure { st with examples := st.examples ++
      [⟨st.trigger_idx - 1, pred_event_type, NAs,
        candi.position.1, candi.position.2, []⟩] }
  else pure st

/-- Per-document body of `read_examples` (lines 144-229): with gold events,
iterate events (binding the loop variable `event`) and their triggers, then
the negative triggers; without them, iterate the candidates. -/
def s2sItem (cfg : S2SConfig) (item : Item) (st : S2SState) :
    Except ConvErr S2SState := do
  match item.events with
  | some evs =>
    let st ← evs.foldlM (fun st ev =>
      ev.triggers.foldlM (fun st tr => s2sPosTrigger cfg ev tr st)
        { st with lastEvent := some ev }) st
    item.negative_triggers.foldlM (fun st neg => s2sNegTrigger cfg neg st) st
  | none => item.candidates.foldlM (fun st candi => s2sCandidate cfg candi st) st

/-- `EAESeq2SeqProcessor.read_examples` (lines 122-231), ending with the
alignment assertion `assert trigger_idx == len(self.event_preds)` when a
prediction file was supplied. -/
def s2sReadExamples (cfg : S2SConfig) (docs : List Item) :
    Except ConvErr S2SState := do
  let st ← docs.foldlM (fun st item => s2sItem cfg item st) ⟨0, none, []⟩
  match cfg.event_preds with
  | some eps =>
    if st.trigger_idx = eps.length then pure st
    else .error .PredictionAlignmentError
  | none => pure st

/-! ## Specification-side definitions

These follow the wording of the spec/claims (not the source) and are compared
with the source-derived definitions in refinement theorems. -/

/-- Two half-open character spans are disjoint (share no character offset);
stated arithmetically, proved below to coincide with "no common offset". -/
def spansDisjoint (p q : Nat × Nat) : Bool :=
  min p.2 q.2 ≤ max p.1 q.1

/-- Membership in Python's `set(range(a, b))`. -/
theorem mem_pyRangeSet {k a b : Nat} :
    k ∈ pyRangeSet a b ↔ a ≤ k ∧ k < b := by
  constructor
  · intro h
    simp only [pyRangeSet, List.mem_map, List.mem_range] at h
    obtain ⟨j, hj, rfl⟩ := h
    omega
  · intro ⟨h1, h2⟩
    simp only [pyRangeSet, List.mem_map, List.mem_range]
    exact ⟨k - a, by omega, by omega⟩

/-- `spansDisjoint` says exactly that the two spans overlap in no character
offset. -/
theorem spansDisjoint_iff (p q : Nat × Nat) :
    spansDisjoint p q = true ↔
      ¬ ∃ k, (p.1 ≤ k ∧ k < p.2) ∧ (q.1 ≤ k ∧ k < q.2) := by
  simp only [spansDisjoint, decide_eq_true_eq]
  constructor
  · intro h ⟨k, ⟨h1, h2⟩, h3, h4⟩
    omega
  · intro h
    by_contra hc
    push_neg at hc
    exact h ⟨max p.1 q.1, by omega, by omega⟩

/-- The overlap test of the source (non-disjointness of the two Python range
sets) is the negation of `spansDisjoint`. -/
theorem pyRangeSet_overlap (p q : Nat × Nat) :
    ((pyRangeSet p.1 p.2).any (fun k => decide (k ∈ pyRangeSet q.1 q.2)))
      = !spansDisjoint p q := by
  rcases h : spansDisjoint p q with hv | hv
  · rw [Bool.not_false]
    have := (spansDisjoint_iff p q)
    rw [h] at this
    simp only [Bool.false_eq_true, false_iff, not_not] at this
    obtain ⟨k, ⟨h1, h2⟩, h3, h4⟩ := this
    apply List.any_eq_true.2
    exact ⟨k, mem_pyRangeSet.2 ⟨h1, h2⟩, by simp [mem_pyRangeSet, h3, h4]⟩
  · rw [Bool.not_true]
    apply List.any_eq_false.2
    intro k hk
    have hd := (spansDisjoint_iff p q).1 h
    simp only [decide_eq_true_eq]
    intro hq
    exact hd ⟨k, mem_pyRangeSet.1 hk, mem_pyRangeSet.1 hq⟩

/-- The negative-candidate set as the claim words it: with `entities`, the
mentions of every entity having no mention in the positive set, labelled
`NA`; without, the `negative_triggers` mentions whose character spans are
disjoint from every positive mention's span, labelled `NA`. -/
def specNegCandidates (item : Item) (posIds : List Nat)
    (posOffsets : List (Nat × Nat)) : List (Str × Mention) :=
  match item.entities with
  | some ents =>
    (ents.map (fun ent =>
      if ent.mentions.all (fun m => decide (m.mention_id ∉ posIds)) then
        ent.mentions.map (fun m => (NAs, m))
      else [])).flatten
  | none =>
    (item.negative_triggers.filter
      (fun neg => posOffsets.all (fun p => spansDisjoint p neg.position))).map
      (fun n => (NAs, n))

/-! ## Helper lemmas about the argument-extraction pass -/

deriving instance DecidableEq for Except

/-- A successfully scored instance advances `eae_instance_idx` by one, leaves
`trigger_idx` unchanged, and appends the candidates' labels. -/
theorem scoreInstance_ok {cfg : EAEConfig} {preds : List (List Str)}
    {ovf : Nat → Bool} {item : Item} {cands : List (Str × Mention)}
    {st st' : EAEState}
    (h : scoreInstance cfg preds ovf item cands st = .ok st') :
    st'.eae_idx = st.eae_idx + 1 ∧ st'.trigger_idx = st.trigger_idx ∧
      st'.label_names = st.label_names ++ cands.map (fun c => c.1) := by
  unfold scoreInstance at h
  rcases h1 : (if ovf st.eae_idx then Except.ok ()
      else lengthCheck cfg.language preds st.eae_idx item.text) with e | u
  · rw [h1] at h; exact absurd h (by simp)
  · rw [h1] at h
    rcases h2 : convertCandidates cfg.language preds st.eae_idx item.text
        (cands.map (fun c => c.2.position)) with e | prs
    · rw [h2] at h; exact absurd h (by simp)
    · rw [h2] at h
      cases h
      exact ⟨rfl, rfl, rfl⟩

/-- Ranking of the evaluation modes by how many instances they admit. -/
def modeRank : EvalMode → Nat
  | .loose => 0
  | .defaultMode => 1
  | .strict => 2

/-- Number of instances a positive trigger with resolved type `p` contributes
under mode `m`. -/
def posDelta (m : EvalMode) (p : Str) : Nat :=
  if (m = EvalMode.defaultMode ∨ m = EvalMode.loose) ∧ p = NAs then 0 else 1

/-- Number of instances a negative trigger with resolved type `p` contributes
under mode `m`. -/
def negDelta (m : EvalMode) (p : Str) : Nat :=
  if (m = EvalMode.defaultMode ∨ m = EvalMode.strict) ∧ p ≠ NAs then 1 else 0

/-- `posDelta` is monotone in the mode rank. -/
theorem posDelta_mono {m1 m2 : EvalMode} (h : modeRank m1 ≤ modeRank m2)
    (p : Str) : posDelta m1 p ≤ posDelta m2 p := by
  cases m1 <;> cases m2 <;> simp_all [modeRank, posDelta] <;> split <;> omega

/-- `negDelta` is monotone in the mode rank. -/
theorem negDelta_mono {m1 m2 : EvalMode} (h : modeRank m1 ≤ modeRank m2)
    (p : Str) : negDelta m1 p ≤ negDelta m2 p := by
  cases m1 <;> cases m2 <;> simp_all [modeRank, negDelta]

/-- Behaviour of one positive-trigger step: the resolver is consulted at the
incoming `trigger_idx`, `trigger_idx` advances by one, and `eae_instance_idx`
advances by `posDelta`. -/
theorem processPosTrigger_ok_delta {cfg : EAEConfig} {preds : List (List Str)}
    {ovf : Nat → Bool} {item : Item} {evType : Str} {tr : Trigger}
    {st st' : EAEState}
    (h : processPosTrigger cfg preds ovf item evType tr st = .ok st') :
    ∃ p, resolvePredType cfg st.trigger_idx evType = .ok p ∧
      st'.trigger_idx = st.trigger_idx + 1 ∧
      st'.eae_idx = st.eae_idx + posDelta cfg.eae_eval_mode p := by
  unfold processPosTrigger at h
  rcases hres : resolvePredType cfg st.trigger_idx evType with e | p
  · rw [hres] at h; exact absurd h (by simp)
  · rw [hres] at h
    dsimp only at h
    refine ⟨p, rfl, ?_⟩
    by_cases hgate : (cfg.eae_eval_mode = EvalMode.defaultMode ∨
        cfg.eae_eval_mode = EvalMode.loose) ∧ p = NAs
    · rw [if_pos hgate] at h
      cases h
      simp [posDelta, hgate]
    · rw [if_neg hgate] at h
      obtain ⟨he, ht, _⟩ := scoreInstance_ok h
      refine ⟨by simp [ht], ?_⟩
      simp [he, posDelta, hgate]

/-- Behaviour of one negative-trigger step: the resolver is consulted at the
incoming `trigger_idx` with gold type `"NA"`, `trigger_idx` advances by one,
and `eae_instance_idx` advances by `negDelta`. -/
theorem processNegTrigger_ok_delta {cfg : EAEConfig} {preds : List (List Str)}
    {ovf : Nat → Bool} {item : Item} {neg : Mention} {st st' : EAEState}
    (h : processNegTrigger cfg preds ovf item neg st = .ok st') :
    ∃ p, resolvePredType cfg st.trigger_idx NAs = .ok p ∧
      st'.trigger_idx = st.trigger_idx + 1 ∧
      st'.eae_idx = st.eae_idx + negDelta cfg.eae_eval_mode p := by
  unfold processNegTrigger at h
  rcases hres : resolvePredType cfg st.trigger_idx NAs with e | p
  · rw [hres] at h; exact absurd h (by simp)
  · rw [hres] at h
    dsimp only at h
    refine ⟨p, rfl, ?_⟩
    by_cases hmode : cfg.eae_eval_mode = EvalMode.defaultMode ∨
        cfg.eae_eval_mode = EvalMode.strict
    · rw [if_pos hmode] at h
      by_cases hp : p ≠ NAs
      · rw [if_pos hp] at h
        obtain ⟨he, ht, _⟩ := scoreInstance_ok h
        refine ⟨by simp [ht], ?_⟩
        simp [he, negDelta, hmode, hp]
      · rw [if_neg hp] at h
        cases h
        simp [negDelta, hmode, hp]
    · rw [if_neg hmode] at h
      cases h
      simp [negDelta, hmode]

/-- Preservation of a binary relation along two simultaneously succeeding
`foldlM` runs over the same list. -/
theorem foldlM_rel {α σ : Type} (R : σ → σ → Prop)
    (f g : σ → α → Except ConvErr σ)
    (hstep : ∀ s t a s' t', R s t → f s a = .ok s' → g t a = .ok t' → R s' t') :
    ∀ (l : List α) {s t s' t' : σ}, R s t →
      l.foldlM f s = .ok s' → l.foldlM g t = .ok t' → R s' t' := by
  intro l
  induction l with
  | nil =>
    intro s t s' t' hR h1 h2
    simp only [List.foldlM_nil] at h1 h2
    cases h1; cases h2; exact hR
  | cons a l ih =>
    intro s t s' t' hR h1 h2
    rw [List.foldlM_cons] at h1 h2
    rcases hf : f s a with e | s1
    · rw [hf] at h1
      exact absurd h1 (by simp [Bind.bind, Except.bind])
    · rcases hg : g t a with e | t1
      · rw [hg] at h2
        exact absurd h2 (by simp [Bind.bind, Except.bind])
      · rw [hf] at h1
        rw [hg] at h2
        simp only [Bind.bind, Except.bind] at h1 h2
        exact ih (hstep s t a s1 t1 hR hf hg) h1 h2

/-- The simulation relation between two evaluation-mode variants of the
argument-extraction pass: the positional `trigger_idx` agrees and the
instance count of the lower mode is bounded by that of the higher mode. -/
def EaeRel (s t : EAEState) : Prop :=
  s.trigger_idx = t.trigger_idx ∧ s.eae_idx ≤ t.eae_idx

/-- `EaeRel` is preserved by one positive-trigger step when the left mode
ranks no higher than the right mode. -/
theorem posTrigger_rel {cfg : EAEConfig} {m1 m2 : EvalMode}
    (hr : modeRank m1 ≤ modeRank m2) {preds : List (List Str)}
    {ovf : Nat → Bool} {item : Item} {evType : Str} {tr : Trigger}
    {s t s' t' : EAEState} (hRel : EaeRel s t)
    (h1 : processPosTrigger { cfg with eae_eval_mode := m1 } preds ovf item evType tr s = .ok s')
    (h2 : processPosTrigger { cfg with eae_eval_mode := m2 } preds ovf item evType tr t = .ok t') :
    EaeRel s' t' := by
  obtain ⟨p1, hp1, ht1, he1⟩ := processPosTrigger_ok_delta h1
  obtain ⟨p2, hp2, ht2, he2⟩ := processPosTrigger_ok_delta h2
  have hres_eq : resolvePredType { cfg with eae_eval_mode := m1 } s.trigger_idx evType
      = resolvePredType { cfg with eae_eval_mode := m2 } t.trigger_idx evType := by
    rw [hRel.1]
    rfl
  have hpp : p1 = p2 := by
    have h := hp1
    rw [hres_eq, hp2] at h
    cases h; rfl
  subst hpp
  have e1 : ({ cfg with eae_eval_mode := m1 } : EAEConfig).eae_eval_mode = m1 := rfl
  have e2 : ({ cfg with eae_eval_mode := m2 } : EAEConfig).eae_eval_mode = m2 := rfl
  rw [e1] at he1
  rw [e2] at he2
  refine ⟨by rw [ht1, ht2, hRel.1], ?_⟩
  have hm := posDelta_mono hr p1
  have := hRel.2
  omega

/-- `EaeRel` is preserved by one negative-trigger step when the left mode
ranks no higher than the right mode. -/
theorem negTrigger_rel {cfg : EAEConfig} {m1 m2 : EvalMode}
    (hr : modeRank m1 ≤ modeRank m2) {preds : List (List Str)}
    {ovf : Nat → Bool} {item : Item} {neg : Mention}
    {s t s' t' : EAEState} (hRel : EaeRel s t)
    (h1 : processNegTrigger { cfg with eae_eval_mode := m1 } preds ovf item neg s = .ok s')
    (h2 : processNegTrigger { cfg with eae_eval_mode := m2 } preds ovf item neg t = .ok t') :
    EaeRel s' t' := by
  obtain ⟨p1, hp1, ht1, he1⟩ := processNegTrigger_ok_delta h1
  obtain ⟨p2, hp2, ht2, he2⟩ := processNegTrigger_ok_delta h2
  have hres_eq : resolvePredType { cfg with eae_eval_mode := m1 } s.trigger_idx NAs
      = resolvePredType { cfg with eae_eval_mode := m2 } t.trigger_idx NAs := by
    rw [hRel.1]
    rfl
  have hpp : p1 = p2 := by
    have h := hp1
    rw [hres_eq, hp2] at h
    cases h; rfl
  subst hpp
  have e1 : ({ cfg with eae_eval_mode := m1 } : EAEConfig).eae_eval_mode = m1 := rfl
  have e2 : ({ cfg with eae_eval_mode := m2 } : EAEConfig).eae_eval_mode = m2 := rfl
  rw [e1] at he1
  rw [e2] at he2
  refine ⟨by rw [ht1, ht2, hRel.1], ?_⟩
  have hm := negDelta_mono hr p1
  have := hRel.2
  omega

/-- `EaeRel` is preserved by a whole document step. -/
theorem processItemEAE_rel {cfg : EAEConfig} {m1 m2 : EvalMode}
    (hr : modeRank m1 ≤ modeRank m2) {preds : List (List Str)}
    {ovf : Nat → Bool} {item : Item}
    {s t s' t' : EAEState} (hRel : EaeRel s t)
    (h1 : processItemEAE { cfg with eae_eval_mode := m1 } preds ovf item s = .ok s')
    (h2 : processItemEAE { cfg with eae_eval_mode := m2 } preds ovf item t = .ok t') :
    EaeRel s' t' := by
  unfold processItemEAE at h1 h2
  rcases hev : item.events with _ | evs
  · rw [hev] at h1
    exact absurd h1 (by simp)
  · rw [hev] at h1 h2
    dsimp only at h1 h2
    rcases hA : eaePosPhase { cfg with eae_eval_mode := m1 } preds ovf item evs s
        with e | s1
    · rw [hA] at h1
      exact absurd h1 (by simp)
    · rcases hB : eaePosPhase { cfg with eae_eval_mode := m2 } preds ovf item evs t
          with e | t1
      · rw [hB] at h2
        exact absurd h2 (by simp)
      · rw [hA] at h1
        rw [hB] at h2
        have hmid : EaeRel s1 t1 := by
          unfold eaePosPhase at hA hB
          refine foldlM_rel EaeRel _ _ ?_ evs hRel hA hB
          intro s t ev s' t' hR hf hg
          refine foldlM_rel EaeRel _ _ ?_ ev.triggers hR hf hg
          intro s t tr s' t' hR hf hg
          exact posTrigger_rel hr hR hf hg
        unfold eaeNegPhase at h1 h2
        refine foldlM_rel EaeRel _ _ ?_ item.negative_triggers hmid h1 h2
        intro s t neg s' t' hR hf hg
        exact negTrigger_rel hr hR hf hg

/-- `EaeRel` between the final states of two full passes that differ only in
evaluation mode, with the lower-ranked mode on the left. -/
theorem processDocsEAE_rel {cfg : EAEConfig} {m1 m2 : EvalMode}
    (hr : modeRank m1 ≤ modeRank m2) {preds : List (List Str)}
    {ovf : Nat → Bool} {docs : List Item} {s' t' : EAEState}
    (h1 : processDocsEAE { cfg with eae_eval_mode := m1 } preds ovf docs = .ok s')
    (h2 : processDocsEAE { cfg with eae_eval_mode := m2 } preds ovf docs = .ok t') :
    EaeRel s' t' := by
  unfold processDocsEAE at h1 h2
  refine foldlM_rel EaeRel _ _ ?_ docs ⟨rfl, Nat.le_refl _⟩ h1 h2
  intro s t item s' t' hR hf hg
  exact processItemEAE_rel hr hR hf hg

/-! ## Claim C5 — Offset Mapper -/

/-- C5: for every text and every character span, the Offset Mapper returns,
for English, `word_start` equal to the number of whitespace-delimited words in
`text[:start]` and `word_end` equal to `word_start` plus the number of words
in `text[start:end]`; for Chinese, `word_start` equal to the length of
`text[:start]` with whitespace removed and `word_end` equal to the length of
`text[:end]` with whitespace removed. -/
theorem C5_offset_mapper_correct (text : Str) (s e : Nat) :
    to_word_span Language.English text (s, e)
        = .ok (countWords (text.take s),
               countWords (text.take s) + countWords ((text.take e).drop s))
  ∧ to_word_span Language.Chinese text (s, e)
        = .ok (((text.take s).filter (fun c => !isWs c)).length,
               ((text.take e).filter (fun c => !isWs c)).length) := by
  constructor
  · simp [to_word_span, pySplit_length]
  · simp [to_word_span, pySplit_flatten]

/-! ## Claim C9 — unsupported language tags -/

/-- C9: for every language tag other than English and Chinese, segmentation
(the Tokenization Adapter), offset mapping, and the per-document length
assertion all fail with `UnsupportedLanguageError`. -/
theorem C9_unsupported_language (lang : Language)
    (h1 : lang ≠ Language.English) (h2 : lang ≠ Language.Chinese) :
    (∀ text, get_words lang text = .error .UnsupportedLanguageError)
  ∧ (∀ text cp, to_word_span lang text cp = .error .UnsupportedLanguageError)
  ∧ (∀ preds idx text,
       lengthCheck lang preds idx text = .error .UnsupportedLanguageError) := by
  cases lang with
  | English => exact absurd rfl h1
  | Chinese => exact absurd rfl h2
  | Other tag => exact ⟨fun _ => rfl, fun _ _ => rfl, fun _ _ _ => rfl⟩

/-- Witness for C9 at the concrete tag `"Spanish"`. -/
theorem C9_witness :
    get_words (Language.Other "Spanish".toList) "hola".toList
        = .error .UnsupportedLanguageError
  ∧ to_word_span (Language.Other "Spanish".toList) "hola".toList (0, 2)
        = .error .UnsupportedLanguageError :=
  ⟨(C9_unsupported_language (Language.Other "Spanish".toList)
      (by decide) (by decide)).1 "hola".toList,
   (C9_unsupported_language (Language.Other "Spanish".toList)
      (by decide) (by decide)).2.1 "hola".toList (0, 2)⟩

/-! ## Claim C6 — evaluation-mode monotonicity -/

/-- C6: for fixed documents, prediction rows, overflow flags and resolver
inputs, the number of argument-extraction instances produced under `loose`
mode is at most the number under `default` mode, which is at most the number
under `strict` mode. -/
theorem C6_mode_monotonicity (cfg : EAEConfig) (preds : List (List Str))
    (ovf : Nat → Bool) (docs : List Item) (stL stD stS : EAEState)
    (hL : processDocsEAE { cfg with eae_eval_mode := EvalMode.loose } preds ovf docs = .ok stL)
    (hD : processDocsEAE { cfg with eae_eval_mode := EvalMode.defaultMode } preds ovf docs = .ok stD)
    (hS : processDocsEAE { cfg with eae_eval_mode := EvalMode.strict } preds ovf docs = .ok stS) :
    stL.eae_idx ≤ stD.eae_idx ∧ stD.eae_idx ≤ stS.eae_idx :=
  ⟨(processDocsEAE_rel (by decide) hL hD).2,
   (processDocsEAE_rel (by decide) hD hS).2⟩

/-- Concrete document for the C6 witness: one event with one argument-free
trigger. -/
def itemW6 : Item :=
  ⟨"fired".toList, some [⟨"Attack".toList, [⟨"fired".toList, (0, 5), []⟩]⟩],
   [], none, []⟩

/-- Base configuration for the C6 witness. -/
def cfgW6 : EAEConfig := ⟨Language.English, EvalMode.defaultMode, true, none⟩

/-- Witness for C6: all three modes complete on `itemW6` and the instance
counts are monotone. -/
theorem C6_witness :
    (⟨1, 1, [], []⟩ : EAEState).eae_idx ≤ (⟨1, 1, [], []⟩ : EAEState).eae_idx
  ∧ (⟨1, 1, [], []⟩ : EAEState).eae_idx ≤ (⟨1, 1, [], []⟩ : EAEState).eae_idx :=
  C6_mode_monotonicity cfgW6 [] (fun _ => true) [itemW6]
    ⟨1, 1, [], []⟩ ⟨1, 1, [], []⟩ ⟨1, 1, [], []⟩
    (by decide) (by decide) (by decide)

/-! ## Claim C1 — instances per trigger in `strict` and `loose` mode -/

/-- Document refuting C1: no events, one negative trigger. -/
def itemC1 : Item := ⟨"hit".toList, some [], [⟨1, "hit".toList, (0, 3)⟩], none, []⟩

/-- Configuration refuting C1: `strict` mode with golden triggers, so the
negative trigger's resolved type is its gold type `"NA"`. -/
def cfgC1 : EAEConfig := ⟨Language.English, EvalMode.strict, true, none⟩

/-- C1 as stated is false: in `strict` mode, processing `itemC1` handles one
trigger (the final `trigger_idx` is `1`) but scores zero instances (the final
`eae_instance_idx` is `0`), because a negative trigger whose resolved
predicted type is `"NA"` is skipped even in `strict` mode — so not every
trigger yields an instance regardless of its resolved type. -/
theorem C1_counterexample :
    (processDocsEAE cfgC1 [] (fun _ => true) [itemC1]).toOption
        = some ⟨1, 0, [], []⟩
  ∧ (0 : Nat) ≠ 1 := by decide

/-- C1 (amended): in `strict` mode every positive trigger yields exactly one
scored instance regardless of its resolved type; a negative trigger yields an
instance exactly when its resolved predicted type is not `"NA"`; in `loose`
mode no negative trigger yields an instance. -/
theorem C1_amended (cfg : EAEConfig) (preds : List (List Str))
    (ovf : Nat → Bool) (item : Item) :
    (∀ evType tr st st', cfg.eae_eval_mode = EvalMode.strict →
       processPosTrigger cfg preds ovf item evType tr st = .ok st' →
       st'.eae_idx = st.eae_idx + 1)
  ∧ (∀ neg st st', cfg.eae_eval_mode = EvalMode.strict →
       processNegTrigger cfg preds ovf item neg st = .ok st' →
       ∃ p, resolvePredType cfg st.trigger_idx NAs = .ok p ∧
         st'.eae_idx = st.eae_idx + (if p = NAs then 0 else 1))
  ∧ (∀ neg st st', cfg.eae_eval_mode = EvalMode.loose →
       processNegTrigger cfg preds ovf item neg st = .ok st' →
       st'.eae_idx = st.eae_idx) := by
  refine ⟨?_, ?_, ?_⟩
  · intro evType tr st st' hm h
    obtain ⟨p, _, _, he⟩ := processPosTrigger_ok_delta h
    rw [he, hm]
    simp [posDelta]
  · intro neg st st' hm h
    obtain ⟨p, hp, _, he⟩ := processNegTrigger_ok_delta h
    refine ⟨p, hp, ?_⟩
    rw [he, hm]
    by_cases hpna : p = NAs <;> simp [negDelta, hpna]
  · intro neg st st' hm h
    obtain ⟨p, _, _, he⟩ := processNegTrigger_ok_delta h
    rw [he, hm]
    simp [negDelta]

/-- Witness for C1 (amended): concrete strict-mode positive and negative
trigger steps and a loose-mode negative step. -/
theorem C1_witness :
    ((⟨1, 1, [], []⟩ : EAEState).eae_idx = (initEAE).eae_idx + 1)
  ∧ (∃ p, resolvePredType cfgC1 0 NAs = .ok p ∧
       (⟨1, 0, [], []⟩ : EAEState).eae_idx = (initEAE).eae_idx + (if p = NAs then 0 else 1))
  ∧ ((⟨1, 0, [], []⟩ : EAEState).eae_idx = (initEAE).eae_idx) :=
  ⟨(C1_amended cfgC1 [] (fun _ => true) itemW6).1 "Attack".toList
      ⟨"fired".toList, (0, 5), []⟩ initEAE ⟨1, 1, [], []⟩ (by decide) (by decide),
   (C1_amended cfgC1 [] (fun _ => true) itemC1).2.1 ⟨1, "hit".toList, (0, 3)⟩
      initEAE ⟨1, 0, [], []⟩ (by decide) (by decide),
   (C1_amended ⟨Language.English, EvalMode.loose, true, none⟩ [] (fun _ => true) itemC1).2.2
      ⟨1, "hit".toList, (0, 3)⟩ initEAE ⟨1, 0, [], []⟩ (by decide) (by decide)⟩

/-! ## Claim C3 — prediction-alignment failures are fatal -/

/-- C3: if the supplied per-instance prediction array's length disagrees with
the running instance count at the end of the pass, the converter returns
`PredictionAlignmentError`; if the positional prediction-file index runs past
the prediction array's bound, the resolver returns
`PredictionAlignmentError`; and for every prediction array shorter than the
computed instance count no score is returned. -/
theorem C3_prediction_alignment (cfg : EAEConfig) (preds : List (List Str))
    (ovf : Nat → Bool) (docs : List Item) :
    (∀ st, processDocsEAE cfg preds ovf docs = .ok st →
       preds.length ≠ st.eae_idx →
       get_ace2005_argument_extraction_sl cfg preds ovf docs
         = .error .PredictionAlignmentError)
  ∧ (∀ eps idx t, cfg.golden_trigger = false → cfg.event_preds = some eps →
       eps.length ≤ idx →
       resolvePredType cfg idx t = .error .PredictionAlignmentError)
  ∧ (∀ st, processDocsEAE cfg preds ovf docs = .ok st →
       preds.length < st.eae_idx →
       ∀ r, get_ace2005_argument_extraction_sl cfg preds ovf docs ≠ .ok r) := by
  have key : ∀ st, processDocsEAE cfg preds ovf docs = .ok st →
      preds.length ≠ st.eae_idx →
      get_ace2005_argument_extraction_sl cfg preds ovf docs
        = .error .PredictionAlignmentError := by
    intro st h hne
    unfold get_ace2005_argument_extraction_sl
    rw [h]
    dsimp only
    rw [if_neg hne]
  refine ⟨key, ?_, ?_⟩
  · intro eps idx t hg hep hlen
    unfold resolvePredType
    simp only [hg, hep]
    rw [List.get?_eq_none.2 hlen]
    rfl
  · intro st h hlt r
    rw [key st h (by omega)]
    simp

/-- Witness for C3: a pass producing one instance against an empty prediction
array aborts, and an exhausted positional index aborts. -/
theorem C3_witness :
    get_ace2005_argument_extraction_sl cfgW6 [] (fun _ => true) [itemW6]
        = .error .PredictionAlignmentError
  ∧ resolvePredType ⟨Language.English, EvalMode.defaultMode, false, some []⟩ 0 NAs
        = .error .PredictionAlignmentError :=
  ⟨(C3_prediction_alignment cfgW6 [] (fun _ => true) [itemW6]).1
      ⟨1, 1, [], []⟩ (by decide) (by decide),
   (C3_prediction_alignment ⟨Language.English, EvalMode.defaultMode, false, some []⟩
      [] (fun _ => true) []).2.1 [] 0 NAs rfl rfl (by decide)⟩

/-! ## Claim C10 — unconditional removal of `"NA"` before scoring -/

/-- C10: both converters form the positive label set by removing `"NA"` from
the deduplicated gold labels unconditionally, so a batch whose reached scoring
step collected no `"NA"` label makes the scoring step fail (`ValueError` from
`list.remove`) instead of returning a score. -/
theorem C10_na_removal :
    (∀ l : List Str, NAs ∉ l → listRemove NAs l.dedup = .error .ValueError)
  ∧ (∀ lang preds ovf docs lastItem st,
       docs.getLast? = some lastItem → lastItem.events.isSome = true →
       processDocsED lang preds ovf docs = .ok st → NAs ∉ st.label_names →
       get_ace2005_trigger_detection_sl lang preds ovf docs = .error .ValueError)
  ∧ (∀ cfg preds ovf docs st,
       processDocsEAE cfg preds ovf docs = .ok st →
       preds.length = st.eae_idx → NAs ∉ st.label_names →
       get_ace2005_argument_extraction_sl cfg preds ovf docs = .error .ValueError) := by
  have key : ∀ l : List Str, NAs ∉ l → listRemove NAs l.dedup = .error .ValueError := by
    intro l hna
    unfold listRemove
    rw [if_neg (by simpa [List.mem_dedup] using hna)]
  refine ⟨key, ?_, ?_⟩
  · intro lang preds ovf docs lastItem st hlast hev h hna
    unfold get_ace2005_trigger_detection_sl
    rw [h]
    dsimp only
    rw [hlast]
    dsimp only
    rw [if_pos hev, key st.label_names hna]
  · intro cfg preds ovf docs st h hlen hna
    unfold get_ace2005_argument_extraction_sl
    rw [h]
    dsimp only
    rw [if_pos hlen, key st.label_names hna]

/-- Concrete document for the C10 witness: one event with one trigger carrying
one role-labelled argument mention, no negative triggers and no entities, so
no candidate is ever labelled `"NA"`. -/
def itemW10 : Item :=
  ⟨"a".toList,
   some [⟨"Attack".toList,
          [⟨"a".toList, (0, 1), [⟨"Victim".toList, [⟨5, "a".toList, (0, 1)⟩]⟩]⟩]⟩],
   [], none, []⟩

/-- Configuration for the C10 witness. -/
def cfgW10 : EAEConfig := ⟨Language.English, EvalMode.defaultMode, true, none⟩

/-- Witness for C10: on `itemW10` both converters reach the scoring step with
no `"NA"` label and abort with `ValueError`. -/
theorem C10_witness :
    get_ace2005_trigger_detection_sl Language.English [["Attack".toList]]
        (fun _ => true) [itemW10] = .error .ValueError
  ∧ get_ace2005_argument_extraction_sl cfgW10 [["P".toList]]
        (fun _ => true) [itemW10] = .error .ValueError :=
  ⟨C10_na_removal.2.1 Language.English [["Attack".toList]] (fun _ => true)
      [itemW10] itemW10 ⟨["Attack".toList], ["Attack".toList]⟩
      (by decide) (by decide) (by decide) (by decide),
   C10_na_removal.2.2 cfgW10 [["P".toList]] (fun _ => true) [itemW10]
      ⟨1, 1, ["P".toList], ["Victim".toList]⟩
      (by decide) (by decide) (by decide)⟩

/-! ## Claim C8 — blind-inference mode of event detection -/

/-- A successful per-document event-detection step extends the two output
streams by the document's converted predictions and labels. -/
theorem processItemED_ok {lang : Language} {preds : List (List Str)}
    {ovf : Nat → Bool} {i : Nat} {item : Item} {st st' : EDState}
    (h : processItemED lang preds ovf i item st = .ok st') :
    ∃ prs, convertCandidates lang preds i item.text (edCandidates item).1 = .ok prs ∧
      st' = ⟨st.results ++ prs, st.label_names ++ (edCandidates item).2⟩ := by
  unfold processItemED at h
  rcases h1 : (if ovf i then Except.ok () else lengthCheck lang preds i item.text)
      with e | u
  · rw [h1] at h
    exact absurd h (by simp)
  · rw [h1] at h
    rcases h2 : convertCandidates lang preds i item.text (edCandidates item).1
        with e | prs
    · rw [h2] at h
      exact absurd h (by simp)
    · rw [h2] at h
      cases h
      exact ⟨prs, rfl, rfl⟩

/-- When every processed document lacks gold events, the event-detection fold
leaves `label_names` unchanged. -/
theorem edFold_labels (lang : Language) (preds : List (List Str))
    (ovf : Nat → Bool) :
    ∀ (l : List (Nat × Item)) (st0 st : EDState),
      (∀ ip ∈ l, ip.2.events = none) →
      l.foldlM (fun st ip => processItemED lang preds ovf ip.1 ip.2 st) st0 = .ok st →
      st.label_names = st0.label_names := by
  intro l
  induction l with
  | nil =>
    intro st0 st _ h
    simp only [List.foldlM_nil] at h
    cases h; rfl
  | cons a l ih =>
    intro st0 st hall h
    rw [List.foldlM_cons] at h
    rcases hf : processItemED lang preds ovf a.1 a.2 st0 with e | s1
    · rw [hf] at h
      exact absurd h (by simp [Bind.bind, Except.bind])
    · rw [hf] at h
      simp only [Bind.bind, Except.bind] at h
      obtain ⟨prs, _, hs1⟩ := processItemED_ok hf
      have hlab : s1.label_names = st0.label_names := by
        rw [hs1]
        have hcand : (edCandidates a.2).2 = [] := by
          simp [edCandidates, hall a (List.mem_cons_self a l)]
        simp [hcand]
      rw [ih s1 st (fun ip hip => hall ip (List.mem_cons_of_mem a hip)) h, hlab]

/-- C8: when the documents carry a `candidates` list and no gold `events`,
the converter uses the candidates verbatim with no labels (the enumerated
candidate spans are exactly `item["candidates"]` with an empty label stream),
the post-hoc F1 scoring step is skipped, and the function returns only the
prediction list of the document pass. -/
theorem C8_blind_inference (lang : Language) (preds : List (List Str))
    (ovf : Nat → Bool) (docs : List Item) (hne : docs ≠ [])
    (hall : ∀ it ∈ docs, it.events = none) :
    get_ace2005_trigger_detection_sl lang preds ovf docs
        = (processDocsED lang preds ovf docs).map (fun st => st.results)
  ∧ (∀ it ∈ docs, edCandidates it = (it.candidates.map (fun n => n.position), []))
  ∧ (∀ st, processDocsED lang preds ovf docs = .ok st → st.label_names = []) := by
  obtain ⟨lastItem, hlast⟩ := Option.isSome_iff_exists.1 (List.getLast?_isSome.2 hne)
  have hmem : lastItem ∈ docs := by
    obtain ⟨hne2, heq⟩ := List.mem_getLast?_eq_getLast (Option.mem_def.2 hlast)
    rw [heq]
    exact List.getLast_mem hne2
  have hlev : lastItem.events = none := hall lastItem hmem
  refine ⟨?_, ?_, ?_⟩
  · unfold get_ace2005_trigger_detection_sl
    rcases hret : processDocsED lang preds ovf docs with e | st
    · rfl
    · dsimp only
      rw [hlast]
      dsimp only
      simp [hlev]
      rfl
  · intro it hit
    simp [edCandidates, hall it hit]
  · intro st h
    unfold processDocsED at h
    refine edFold_labels lang preds ovf docs.enum ⟨[], []⟩ st ?_ h
    intro ip hip
    exact hall ip.2 (List.getElem?_mem (List.mem_enum_iff_getElem?.1 hip))

/-- Concrete blind-inference document for the C8 witness. -/
def itemW8 : Item := ⟨"a b".toList, none, [], none, [⟨1, "a".toList, (0, 1)⟩]⟩

/-- Witness for C8 on `itemW8`. -/
theorem C8_witness :
    get_ace2005_trigger_detection_sl Language.English
        [["T".toList, "U".toList]] (fun _ => true) [itemW8]
      = (processDocsED Language.English [["T".toList, "U".toList]]
          (fun _ => true) [itemW8]).map (fun st => st.results)
  ∧ edCandidates itemW8 = (itemW8.candidates.map (fun n => n.position), [])
  ∧ (⟨["T".toList], []⟩ : EDState).label_names = [] :=
  have h := C8_blind_inference Language.English [["T".toList, "U".toList]]
    (fun _ => true) [itemW8] (by decide) (by decide)
  ⟨h.1, h.2.1 itemW8 (by decide), h.2.2 ⟨["T".toList], []⟩ (by decide)⟩

/-! ## Claim C4 — negative-candidate enumeration -/

/-- `any` of a negated predicate is the negation of `all`. -/
theorem any_not_eq_not_all {α : Type} (p : α → Bool) (l : List α) :
    (l.any fun x => !p x) = !l.all p := by
  induction l with
  | nil => rfl
  | cons x xs ih => simp [List.any_cons, List.all_cons, ih, Bool.not_and]

/-- `all` of a negated predicate is the negation of `any`. -/
theorem all_not_eq_not_any {α : Type} (p : α → Bool) (l : List α) :
    (l.all fun x => !p x) = !l.any p := by
  induction l with
  | nil => rfl
  | cons x xs ih => simp [List.any_cons, List.all_cons, ih, Bool.not_or]

/-- The source's entity-negative enumeration matches the claim's description:
all mentions of every entity having no mention in the positive set. -/
theorem negCandidatesEntities_eq (ents : List Entity) (posIds : List Nat) :
    negCandidatesEntities ents posIds
      = (ents.map (fun ent =>
          if ent.mentions.all (fun m => decide (m.mention_id ∉ posIds)) then
            ent.mentions.map (fun m => (NAs, m))
          else [])).flatten := by
  unfold negCandidatesEntities
  congr 1
  apply List.map_congr_left
  intro ent _
  have hd : (fun m : Mention => decide (m.mention_id ∉ posIds))
      = fun m : Mention => !decide (m.mention_id ∈ posIds) := by
    funext m
    exact decide_not
  rw [hd, all_not_eq_not_any]
  rcases h : ent.mentions.any (fun m => decide (m.mention_id ∈ posIds)) with hv | hv
  · simp [h]
  · simp [h]

/-- The source's negative-trigger fallback enumeration matches the claim's
description: the negative triggers whose spans are disjoint from every
positive mention's span. -/
theorem negCandidatesNoEnt_eq (negs : List Mention) (posOffsets : List (Nat × Nat)) :
    negCandidatesNoEnt negs posOffsets
      = (negs.filter (fun neg =>
          posOffsets.all (fun p => spansDisjoint p neg.position))).map
          (fun n => (NAs, n)) := by
  induction negs with
  | nil => rfl
  | cons n ns ih =>
    unfold negCandidatesNoEnt
    unfold negCandidatesNoEnt at ih
    simp only [List.filterMap_cons, List.filter_cons]
    have h1 : (fun p : Nat × Nat =>
        (pyRangeSet p.1 p.2).any (fun k => decide (k ∈ pyRangeSet n.position.1 n.position.2)))
        = fun p : Nat × Nat => !spansDisjoint p n.position := by
      funext p
      exact pyRangeSet_overlap p n.position
    rw [h1, any_not_eq_not_all]
    rcases h : posOffsets.all (fun p => spansDisjoint p n.position) with hv | hv
    · simp [h, ih]
    · simp [h, ih]

/-- Document refuting C4: it has `entities`, no events, and one negative
trigger. -/
def itemC4 : Item :=
  ⟨"a b c".toList, some [], [⟨2, "c".toList, (4, 5)⟩],
   some [⟨[⟨1, "a".toList, (0, 1)⟩]⟩], []⟩

/-- Configuration refuting C4: strict mode with a supplied prediction file
resolving the negative trigger to a positive type, so its instance is
scored. -/
def cfgC4 : EAEConfig :=
  ⟨Language.English, EvalMode.strict, false, some ["Attack".toList]⟩

/-- Per-word predictions for the C4 counterexample. -/
def predsC4 : List (List Str) := [["X".toList, "Y".toList, "Z".toList]]

/-- C4 as stated is false: processing `itemC4` scores the negative-trigger
instance (final instance count `1`, labels `["NA"]`), and that instance's
candidate list is the `negative_triggers` list — not the entity mentions that
the claim prescribes for a document carrying `entities` (the positive set of
this instance is empty). -/
theorem C4_counterexample :
    (processDocsEAE cfgC4 predsC4 (fun _ => false) [itemC4]).toOption
        = some ⟨1, 1, ["Z".toList], [NAs]⟩
  ∧ negTriggerCandidates itemC4 ≠ specNegCandidates itemC4 [] [] := by
  decide

/-- C4 (amended): for every *positive-trigger* instance the candidate list is
the positive candidates followed by the claim's negative candidates (entity
mentions of argument-free entities when `entities` is present, else the
span-disjoint negative triggers); for a scored *negative-trigger* instance
the candidates are all `negative_triggers` labelled `NA`, regardless of
`entities`. -/
theorem C4_amended :
    (∀ item tr, posTriggerCandidates item tr
        = posCandidates tr
            ++ specNegCandidates item (posMentionIds tr) (posOffsetsOf tr))
  ∧ (∀ item, negTriggerCandidates item
        = item.negative_triggers.map (fun n => (NAs, n))) := by
  refine ⟨?_, fun item => rfl⟩
  intro item tr
  unfold posTriggerCandidates specNegCandidates
  rcases hent : item.entities with _ | ents
  · dsimp only
    rw [negCandidatesNoEnt_eq]
  · dsimp only
    rw [negCandidatesEntities_eq]

/-! ## Claim C2 — Label Backfill Resolver and the stale loop variable -/

/-- Document exhibiting the C2 failure: one positive event of type `"Attack"`
and one negative trigger. -/
def itemC2 : Item :=
  ⟨"x y".toList, some [⟨"Attack".toList, [⟨"x".toList, (0, 1), []⟩]⟩],
   [⟨7, "y".toList, (2, 3)⟩], none, []⟩

/-- Configuration exhibiting the C2 failure: training mode, so the resolver
must return each trigger's gold type. -/
def cfgC2 : S2SConfig := ⟨Language.English, EvalMode.strict, false, true, none⟩

/-- C2 fails on `seq2seq_processor.py`: in training mode on `itemC2`, the
negative trigger's example is produced with `pred_type = "Attack"` — the
stale positive loop variable `event["type"]` — although its own gold type is
`"NA"` (its `true_type`); the resolver of `convert_format.py`, by contrast,
returns the gold type `"NA"` in the same situation (third conjunct). -/
theorem C2_stale_gold_type :
    (s2sReadExamples cfgC2 [itemC2]).toOption.map
        (fun st => st.examples.map (fun e => (e.pred_type, e.true_type)))
      = some [("Attack".toList, "Attack".toList), ("Attack".toList, NAs)]
  ∧ ("Attack".toList : Str) ≠ NAs
  ∧ resolvePredType ⟨Language.English, EvalMode.strict, true, none⟩ 1 NAs
      = .ok NAs := by
  decide

/-! ## Claim C7 — template round trip -/

/-- A role or value that survives the round trip: non-empty, free of
whitespace, of template brackets and of the colon delimiter. -/
def goodTok (s : Str) : Prop :=
  s ≠ [] ∧ ∀ c ∈ s, isWs c = false ∧ isBracket c = false ∧ c ≠ split_word

instance goodTok_decidable (s : Str) : Decidable (goodTok s) := by
  unfold goodTok
  infer_instance

/-- A separator-free prefix passes through the splitter into the current
field. -/
theorem splitOnPred_append {p : Char → Bool} (s : List Char)
    (hs : ∀ c ∈ s, p c = false) (rest cur : List Char) :
    splitOnPred p (s ++ rest) cur = splitOnPred p rest (s.reverse ++ cur) := by
  induction s generalizing cur with
  | nil => simp
  | cons c cs ih =>
    have hc : p c = false := hs c (List.mem_cons_self c cs)
    simp only [List.cons_append, splitOnPred, List.append_eq]
    rw [if_neg (by simp [hc])]
    rw [ih (fun x hx => hs x (List.mem_cons_of_mem _ hx)) (c :: cur)]
    simp

/-- Splitting a separator-free string yields a single field. -/
theorem splitOnPred_no_sep {p : Char → Bool} (s : List Char)
    (hs : ∀ c ∈ s, p c = false) (cur : List Char) :
    splitOnPred p s cur = [cur.reverse ++ s] := by
  have h := splitOnPred_append s hs [] cur
  rw [List.append_nil] at h
  rw [h]
  simp [splitOnPred]

/-- `dropWhile` does nothing on a string whose characters are all
non-whitespace. -/
theorem dropWhile_isWs_eq_self {s : Str} (hne : s ≠ [])
    (hs : ∀ c ∈ s, isWs c = false) :
    s.dropWhile (fun c => isWs c) = s := by
  cases s with
  | nil => exact absurd rfl hne
  | cons c cs => simp [List.dropWhile_cons, hs c (List.mem_cons_self c cs)]

/-- `dropWhile` stops at a non-whitespace block. -/
theorem dropWhile_isWs_of_head {s z : List Char} (hne : s ≠ [])
    (hs : ∀ c ∈ s, isWs c = false) :
    (s ++ z).dropWhile (fun c => isWs c) = s ++ z := by
  cases s with
  | nil => exact absurd rfl hne
  | cons c cs =>
    simp [List.dropWhile_cons, hs c (List.mem_cons_self c cs)]

/-- Stripping a good token does nothing. -/
theorem pyStrip_good {s : Str} (h : goodTok s) : pyStrip s = s := by
  unfold pyStrip
  rw [dropWhile_isWs_eq_self h.1 (fun c hc => (h.2 c hc).1)]
  rw [dropWhile_isWs_eq_self (by simpa using h.1)
    (fun c hc => (h.2 c (List.mem_reverse.1 hc)).1)]
  simp

/-- Stripping a good token with one leading space removes just the space. -/
theorem pyStrip_space_cons {v : Str} (hv : goodTok v) : pyStrip (' ' :: v) = v := by
  unfold pyStrip
  rw [List.dropWhile_cons, if_pos (by decide),
    dropWhile_isWs_eq_self hv.1 (fun c hc => (hv.2 c hc).1)]
  rw [dropWhile_isWs_eq_self (by simpa using hv.1)
    (fun c hc => (hv.2 c (List.mem_reverse.1 hc)).1)]
  simp

/-- De-spacing a whitespace-free string does nothing. -/
theorem pyReplaceSpace_good {s : Str} (h : ∀ c ∈ s, isWs c = false) :
    pyReplaceSpace s = s := by
  unfold pyReplaceSpace
  apply List.filter_eq_self.2
  intro c hc
  have hw := h c hc
  simp only [decide_eq_true_eq]
  intro hcsp
  rw [hcsp] at hw
  exact absurd hw (by decide)

/-- Stripping the interior of an encoded block keeps `role: value`. -/
theorem pyStrip_inner {r v : Str} (hr : goodTok r) (hv : goodTok v) :
    pyStrip (' ' :: (r ++ split_word :: ' ' :: (v ++ [' '])))
      = r ++ split_word :: ' ' :: v := by
  unfold pyStrip
  rw [List.dropWhile_cons, if_pos (by decide),
    dropWhile_isWs_of_head hr.1 (fun c hc => (hr.2 c hc).1)]
  have h2 : (r ++ split_word :: ' ' :: (v ++ [' '])).reverse
      = ' ' :: (v.reverse ++ ' ' :: split_word :: r.reverse) := by
    simp
  rw [h2]
  rw [List.dropWhile_cons, if_pos (by decide),
    dropWhile_isWs_of_head (by simpa using hv.1)
      (fun c hc => (hv.2 c (List.mem_reverse.1 hc)).1)]
  simp

/-- Splitting the stripped interior at the colon yields the two fields. -/
theorem splitColon_inner {r v : Str} (hr : goodTok r) (hv : goodTok v) :
    splitColon (r ++ split_word :: ' ' :: v) = [r, ' ' :: v] := by
  unfold splitColon
  rw [splitOnPred_append r
    (fun c hc => decide_eq_false (hr.2 c hc).2.2) (split_word :: ' ' :: v) []]
  simp only [splitOnPred]
  rw [if_pos (by decide), if_neg (by decide)]
  rw [splitOnPred_no_sep v
    (fun c hc => decide_eq_false (hv.2 c hc).2.2) [' ']]
  simp

/-- Parsing an encoded block's interior span recovers the pair. -/
theorem parseSpan_inner {r v : Str} (hr : goodTok r) (hv : goodTok v)
    (iid : Nat) (et : Str) :
    parseSpan iid et (' ' :: (r ++ split_word :: ' ' :: (v ++ [' '])))
      = some (iid, et, r, v) := by
  unfold parseSpan
  rw [pyStrip_inner hr hv]
  rw [if_neg (by
    intro h
    exact hr.1 (List.append_eq_nil.1 h).1)]
  rw [splitColon_inner hr hv]
  dsimp only
  rw [pyStrip_good hr, pyStrip_space_cons hv,
    pyReplaceSpace_good (fun c hc => (hr.2 c hc).1),
    pyReplaceSpace_good (fun c hc => (hv.2 c hc).1)]
  rw [if_pos ⟨hr.1, hv.1⟩]

/-- The empty span parses to nothing. -/
theorem parseSpan_nil (iid : Nat) (et : Str) : parseSpan iid et [] = none := rfl

/-- The interior of an encoded block contains no bracket. -/
theorem inner_no_brackets {r v : Str} (hr : goodTok r) (hv : goodTok v) :
    ∀ c ∈ (r ++ split_word :: ' ' :: (v ++ [' '])), isBracket c = false := by
  intro c hc
  rcases List.mem_append.1 hc with hc | hc
  · exact (hr.2 c hc).2.1
  rcases List.mem_cons.1 hc with rfl | hc
  · decide
  rcases List.mem_cons.1 hc with rfl | hc
  · decide
  rcases List.mem_append.1 hc with hc | hc
  · exact (hv.2 c hc).2.1
  · rw [List.mem_singleton] at hc
    subst hc
    decide

/-- Decoding the encoding of a good pair list yields, before deduplication,
exactly the tagged pairs in order. -/
theorem decoded_pairs (iid : Nat) (et : Str) :
    ∀ ps : List (Str × Str), (∀ p ∈ ps, goodTok p.1 ∧ goodTok p.2) →
      (splitBrackets (encodePairs [' '] ps)).filterMap (parseSpan iid et)
        = ps.map (fun p => (iid, et, p.1, p.2)) := by
  intro ps
  induction ps with
  | nil =>
    intro _
    rfl
  | cons q qs ih =>
    intro hgood
    have hq := hgood q (List.mem_cons_self q qs)
    have hqs : ∀ p ∈ qs, goodTok p.1 ∧ goodTok p.2 :=
      fun p hp => hgood p (List.mem_cons_of_mem q hp)
    have henc : encodePairs [' '] (q :: qs)
        = type_start :: ((' ' :: (q.1 ++ split_word :: ' ' :: (q.2 ++ [' '])))
            ++ (type_end :: encodePairs [' '] qs)) := by
      simp [encodePairs, encodeBlock]
    unfold splitBrackets
    rw [henc]
    simp only [splitOnPred, List.append_eq]
    rw [if_pos (by decide), if_neg (by decide)]
    rw [splitOnPred_append _ (inner_no_brackets hq.1 hq.2) _ _]
    simp only [splitOnPred]
    rw [if_pos (by decide)]
    simp only [List.reverse_nil]
    rw [List.filterMap_cons, List.filterMap_cons, parseSpan_nil]
    have hspan : ((q.1 ++ split_word :: ' ' :: (q.2 ++ [' '])).reverse
        ++ [' ']).reverse
        = ' ' :: (q.1 ++ split_word :: ' ' :: (q.2 ++ [' '])) := by
      simp
    rw [hspan, parseSpan_inner hq.1 hq.2 iid et]
    have hrest := ih hqs
    unfold splitBrackets at hrest
    rw [hrest]
    simp

/-- C7 as stated is false: encoding the pair set
`{("Victim", "John Smith")}` and decoding yields
`{("Victim", "JohnSmith")}` — the decoder's `replace(" ", "")` deletes the
value's interior space, so the round trip does not return the original set. -/
theorem C7_counterexample :
    extract_argument (encodePairs [' '] [("Victim".toList, "John Smith".toList)])
        0 "Attack".toList
      = [(0, "Attack".toList, "Victim".toList, "JohnSmith".toList)]
  ∧ ("Victim".toList, "John Smith".toList)
      ≠ (("Victim".toList : Str), ("JohnSmith".toList : Str)) := by
  decide

/-- C7 (amended): for every set of (role, value) pairs whose roles and values
are non-empty and free of whitespace, template brackets and the colon
delimiter, encoding into the bracketed `< role : value >` template and
decoding with the argument extractor yields the original set
(order-insensitively, duplicates collapsed by the decoder's `list(set(...))`);
and an empty argument set encodes to the empty string, not an empty bracket
pair. -/
theorem C7_roundtrip (ps : List (Str × Str))
    (hgood : ∀ p ∈ ps, goodTok p.1 ∧ goodTok p.2) (iid : Nat) (et : Str) :
    (∀ r v, (iid, et, r, v) ∈ extract_argument (encodePairs [' '] ps) iid et
        ↔ (r, v) ∈ ps)
  ∧ encodePairs [' '] ([] : List (Str × Str)) = [] := by
  refine ⟨?_, rfl⟩
  intro r v
  unfold extract_argument
  rw [List.mem_dedup, decoded_pairs iid et ps hgood]
  constructor
  · intro hmem
    obtain ⟨p, hp, heq⟩ := List.mem_map.1 hmem
    have h1 : p.1 = r := congrArg (fun t => t.2.2.1) heq
    have h2 : p.2 = v := congrArg (fun t => t.2.2.2) heq
    have hpr : p = (r, v) := Prod.ext h1 h2
    exact hpr ▸ hp
  · intro hmem
    exact List.mem_map.2 ⟨(r, v), hmem, rfl⟩

/-- Witness for C7 (amended) at the concrete good pair
`("Victim", "John")`. -/
theorem C7_witness :
    (0, "Attack".toList, "Victim".toList, "John".toList)
        ∈ extract_argument
            (encodePairs [' '] [("Victim".toList, "John".toList)]) 0 "Attack".toList
      ↔ ("Victim".toList, "John".toList)
          ∈ [(("Victim".toList : Str), ("John".toList : Str))] :=
  (C7_roundtrip [("Victim".toList, "John".toList)] (by decide) 0 "Attack".toList).1
    "Victim".toList "John".toList

end OmniEvent
